import Mathlib

/-!
Shallow embedding of the e-racer game engine (TypeScript) in Lean 4,
with theorems settling the frozen claims about its specification.

Conventions of the embedding:
* JS `number` values that the code treats as real quantities (times,
  distances, physics inputs) are modelled as `ℚ`.
* A JS `Map` is modelled as an association list with `assocSet` /
  `assocLookup` / `assocErase` matching `Map.set` / `Map.get` /
  `Map.delete` (set replaces the existing entry in place, otherwise
  appends; `size` is the list length, which agrees with `Map.size`
  whenever keys are unique, as the class maintains).
* Methods that read the wall clock (`performance.now()`) take the
  current time as an explicit parameter.
-/

namespace ERacer

/-- `Map.get`: first binding of the key, if any. -/
def assocLookup {α β : Type} [DecidableEq α] : List (α × β) → α → Option β
  | [], _ => none
  | (k, v) :: rest, key => if k = key then some v else assocLookup rest key

/-- `Map.set`: replace the binding in place if the key is present,
otherwise append it (JS `Map` preserves insertion order). -/
def assocSet {α β : Type} [DecidableEq α] : List (α × β) → α → β → List (α × β)
  | [], key, val => [(key, val)]
  | (k, v) :: rest, key, val =>
      if k = key then (key, val) :: rest else (k, v) :: assocSet rest key val

/-- `Map.delete`: remove the binding of the key, if any. -/
def assocErase {α β : Type} [DecidableEq α] : List (α × β) → α → List (α × β)
  | [], _ => []
  | (k, v) :: rest, key =>
      if k = key then rest else (k, v) :: assocErase rest key

/-- `Map.has`. -/
def assocHas {α β : Type} [DecidableEq α] (m : List (α × β)) (key : α) : Bool :=
  (assocLookup m key).isSome

/-! ### World (src/src/lib/game/core/World.ts)

Only the fields of `World` that its `update` method manipulates are
embedded: the entity registry and its add/remove queues (entities are
identified by their id strings; component content is irrelevant to the
timing claims), the fixed-timestep accumulator, and the baseline time.
Systems and components receive the tick calls but hold no state that
the claims mention, so a frame is summarised by a `FrameReport` giving
the delta that was computed, the capped delta that drove the variable
tick, and how many fixed ticks ran. -/

/-- What one non-initial `World.update` call did. -/
structure FrameReport where
  deltaTime : ℚ
  cappedDeltaTime : ℚ
  ticks : ℕ
deriving DecidableEq

structure WorldState where
  entities : List String
  entitiesToAdd : List String
  entitiesToRemove : List String
  lastFixedUpdateTime : ℚ
  accumulator : ℚ
  fixedTimeStep : ℚ
deriving DecidableEq

/-- `new World(fixedTimeStep)` (default `1/60`). -/
def initWorld (fixedTimeStep : ℚ) : WorldState :=
  { entities := []
    entitiesToAdd := []
    entitiesToRemove := []
    lastFixedUpdateTime := 0
    accumulator := 0
    fixedTimeStep := fixedTimeStep }

/-- `World.processEntityQueue`: first every queued entity is added
(`Map.set`, so an already-present id is left in place), then every
marked id is removed, then both queues are cleared. -/
def processEntityQueue (st : WorldState) : WorldState :=
  { st with
    entities :=
      (st.entitiesToAdd.foldl
        (fun es e => if e ∈ es then es else es ++ [e]) st.entities).filter
        (fun e => decide (e ∉ st.entitiesToRemove))
    entitiesToAdd := []
    entitiesToRemove := [] }

/-- The `while (accumulator >= fixedTimeStep)` loop body, with explicit
fuel so that the definition computes by structural recursion.  Returns
the number of iterations run and the final accumulator.  The guard also
requires `0 < step`: for a non-positive step the source loop would
never terminate once entered, which a total function cannot render. -/
def fixedLoopAux : ℕ → ℚ → ℚ → ℕ × ℚ
  | 0, _, acc => (0, acc)
  | fuel + 1, step, acc =>
      if 0 < step ∧ step ≤ acc then
        ((fixedLoopAux fuel step (acc - step)).1 + 1, (fixedLoopAux fuel step (acc - step)).2)
      else
        (0, acc)

/-- The fixed-timestep drain loop of `World.update`.  `⌊acc/step⌋₊` is
an upper bound on (indeed, exactly) the number of iterations the source
loop performs when `0 < step`, so it serves as the fuel. -/
def fixedLoop (step acc : ℚ) : ℕ × ℚ :=
  fixedLoopAux ⌊acc / step⌋₊ step acc

/-- `World.update(currentTime)`.  Returns the new state together with
`none` when the call took the first-frame baseline branch
(`lastFixedUpdateTime === 0`), otherwise `some` report of the frame. -/
def worldUpdate (st : WorldState) (currentTime : ℚ) : WorldState × Option FrameReport :=
  if st.lastFixedUpdateTime = 0 then
    ({ st with lastFixedUpdateTime := currentTime }, none)
  else
    let deltaTime := (currentTime - st.lastFixedUpdateTime) / 1000
    let cappedDeltaTime := min deltaTime (1/4)
    let st1 := processEntityQueue { st with lastFixedUpdateTime := currentTime }
    let res := fixedLoop st1.fixedTimeStep (st1.accumulator + cappedDeltaTime)
    ({ st1 with accumulator := res.2 },
     some { deltaTime := deltaTime, cappedDeltaTime := cappedDeltaTime, ticks := res.1 })

/-- Run `World.update` over a sequence of clock readings, collecting the
reports of the non-baseline frames. -/
def worldRun : WorldState → List ℚ → WorldState × List FrameReport
  | st, [] => (st, [])
  | st, t :: ts =>
      let step := worldUpdate st t
      let rest := worldRun step.1 ts
      (rest.1, step.2.toList ++ rest.2)

/-! ### LapCounterComponent
(src/src/lib/game/components/LapCounterComponent.ts) -/

/-- One entry of `lapHistory`. -/
structure LapData where
  lapNumber : ℕ
  startTime : ℚ
  endTime : ℚ
  duration : ℚ
  checkpointTimes : List (ℕ × ℚ)
  valid : Bool
deriving DecidableEq

structure LapCounter where
  currentLap : ℕ
  totalLaps : ℕ
  lapStartTime : ℚ
  isRacing : Bool
  currentCheckpoint : ℕ
  totalCheckpoints : ℕ
  checkpointPassing : List (ℕ × ℚ)
  lapHistory : List LapData
  bestLapTime : Option ℚ
deriving DecidableEq

/-- `new LapCounterComponent(totalLaps, totalCheckpoints)`. -/
def mkLapCounter (totalLaps totalCheckpoints : ℕ) : LapCounter :=
  { currentLap := 0
    totalLaps := totalLaps
    lapStartTime := 0
    isRacing := false
    currentCheckpoint := 0
    totalCheckpoints := totalCheckpoints
    checkpointPassing := []
    lapHistory := []
    bestLapTime := none }

/-- `LapCounterComponent.startRace` (`now` stands for the
`performance.now()` it reads). -/
def startRace (lc : LapCounter) (now : ℚ) : LapCounter :=
  { lc with
    isRacing := true
    currentLap := 1
    currentCheckpoint := 0
    checkpointPassing := []
    lapHistory := []
    bestLapTime := none
    lapStartTime := now }

/-- `LapCounterComponent.validateLap`: every index below
`totalCheckpoints` has an entry in the in-progress pass map. -/
def validateLap (lc : LapCounter) : Bool :=
  (List.range lc.totalCheckpoints).all (fun i => assocHas lc.checkpointPassing i)

/-- `LapCounterComponent.completeLap`. -/
def completeLap (lc : LapCounter) (timestamp : ℚ) : LapCounter :=
  let lapTime := timestamp - lc.lapStartTime
  let lapData : LapData :=
    { lapNumber := lc.currentLap
      startTime := lc.lapStartTime
      endTime := timestamp
      duration := lapTime
      checkpointTimes := lc.checkpointPassing
      valid := validateLap lc }
  let lc1 := { lc with lapHistory := lc.lapHistory ++ [lapData] }
  let lc2 :=
    if lapData.valid then
      match lc1.bestLapTime with
      | none => { lc1 with bestLapTime := some lapTime }
      | some b => if lapTime < b then { lc1 with bestLapTime := some lapTime } else lc1
    else lc1
  if lc2.currentLap + 1 > lc2.totalLaps then
    { lc2 with currentLap := lc2.currentLap + 1, isRacing := false }
  else
    { lc2 with
      currentLap := lc2.currentLap + 1
      lapStartTime := timestamp
      currentCheckpoint := 0
      checkpointPassing := [] }

/-- `LapCounterComponent.passCheckpoint(checkpointIndex, timestamp)`:
returns the boolean result paired with the mutated component. -/
def passCheckpoint (lc : LapCounter) (checkpointIndex : ℕ) (timestamp : ℚ) :
    Bool × LapCounter :=
  if ¬lc.isRacing then (false, lc)
  else
    let lc := if lc.totalCheckpoints = 0 then { lc with totalCheckpoints := 5 } else lc
    let expectedNext := (lc.currentCheckpoint + 1) % lc.totalCheckpoints
    let isNextCheckpoint := checkpointIndex = expectedNext
    let isStartFinish := checkpointIndex = 0
    let lc := { lc with checkpointPassing := assocSet lc.checkpointPassing checkpointIndex timestamp }
    if isStartFinish ∧ lc.currentCheckpoint = lc.totalCheckpoints - 1 then
      (true, completeLap lc timestamp)
    else if isNextCheckpoint then
      (true, { lc with currentCheckpoint := checkpointIndex })
    else if isStartFinish ∧ lc.checkpointPassing.length ≥ lc.totalCheckpoints - 1 then
      (true, completeLap lc timestamp)
    else
      (false,
        if checkpointIndex > lc.currentCheckpoint ∨
            (lc.currentCheckpoint = lc.totalCheckpoints - 1 ∧ checkpointIndex = 0) then
          { lc with currentCheckpoint := checkpointIndex }
        else lc)

/-- The concrete scenario of claim C2: `totalLaps = 3`,
`totalCheckpoints = 5`, a fresh `startRace` at time 0, then
checkpoints 0, 1, 2, 3, 4, 0 passed at times 1..6. -/
def lapScenario : LapCounter :=
  (passCheckpoint (passCheckpoint (passCheckpoint (passCheckpoint (passCheckpoint
    (passCheckpoint (startRace (mkLapCounter 3 5) 0) 0 1).2 1 2).2 2 3).2 3 4).2
    4 5).2 0 6).2

/-! ### CheckpointComponent (src/unnamed/part_004)

`checkVehiclePassing` computes the straight-line distance from the
checkpoint's transform to the vehicle position and then branches on it;
the branching is what the claims concern, so the embedding takes that
distance (a nonnegative real in the source) as the `dist` argument, and
the `performance.now()` it latches as `now`.  The entity-has-no-transform
early return (distance never computed) lies outside the claim's scope. -/

/-- `CheckpointComponent.checkVehiclePassing(vehicleEntityId, position)`
acting on the `passedTimestamps` map `m` of a checkpoint of radius
`radius`; returns the boolean result and the new map. -/
def checkVehiclePassing (m : List (String × ℚ)) (radius : ℚ) (vehicleEntityId : String)
    (dist : ℚ) (now : ℚ) : Bool × List (String × ℚ) :=
  if dist ≤ radius then
    if ¬assocHas m vehicleEntityId then
      (true, assocSet m vehicleEntityId now)
    else
      (false, m)
  else if dist > radius * (3/2) then
    (false, assocErase m vehicleEntityId)
  else
    (false, m)

/-! ### VehicleComponent (src/unnamed/part_003) -/

structure V3 where
  x : ℚ
  y : ℚ
  z : ℚ
deriving DecidableEq

structure V4 where
  x : ℚ
  y : ℚ
  z : ℚ
  w : ℚ
deriving DecidableEq

/-- The `VehicleComponent` state the claims touch: dynamic state plus
the stored input values. -/
structure VehicleState where
  velocity : V3
  steeringAngle : ℚ
  engineForce : ℚ
  brakingForce : ℚ
  throttleInput : ℚ
  brakeInput : ℚ
  steeringInput : ℚ
deriving DecidableEq

/-- `VehicleComponent.setInputs(throttle, brake, steering)`:
`Math.max(lo, Math.min(hi, x))` clamping of each input. -/
def setInputs (v : VehicleState) (throttle brake steering : ℚ) : VehicleState :=
  { v with
    throttleInput := max (-1) (min 1 throttle)
    brakeInput := max 0 (min 1 brake)
    steeringInput := max (-1) (min 1 steering) }

/-! ### NetworkIdentityComponent (src/unnamed/part_004, second class) -/

structure NetIdentity where
  networkId : String
  ownerId : String
  isOwner : Bool
  isLocalPlayer : Bool
  syncPosition : Bool
  syncRotation : Bool
  syncScale : Bool
  syncVelocity : Bool
  syncInterval : ℚ
  lastSyncTime : ℚ
  isDirty : Bool
deriving DecidableEq

/-- `NetworkIdentityComponent.needsSync(currentTime)`: returns the
boolean result paired with the (possibly mutated) component. -/
def needsSync (ni : NetIdentity) (currentTime : ℚ) : Bool × NetIdentity :=
  if ¬ni.isOwner then (false, ni)
  else if ni.isDirty ∧ currentTime - ni.lastSyncTime ≥ ni.syncInterval then
    (true, { ni with isDirty := false, lastSyncTime := currentTime })
  else
    (false, ni)

/-! ### TransformComponent state (src/unnamed/part_005)

Only the fields the network handlers write. -/

structure TransformState where
  position : V3
  quaternion : V4
  scale : V3
deriving DecidableEq

/-! ### NetworkSystem (src/unnamed/part_002) -/

/-- An entity as the network system sees it: the three components it
may fetch.  `none` models a missing component. -/
structure NetEntity where
  netIdentity : Option NetIdentity
  transform : Option TransformState
  vehicle : Option VehicleState
deriving DecidableEq

structure TransformData where
  position : V3
  rotation : V4
  scale : Option V3
deriving DecidableEq

structure VehicleData where
  velocity : V3
  steeringAngle : ℚ
  engineForce : ℚ
  brakingForce : ℚ
deriving DecidableEq

/-- Inbound `transform` message (type, timestamp omitted: unread). -/
structure TransformMsg where
  senderId : String
  entityId : String
  data : TransformData
deriving DecidableEq

/-- Inbound `vehicle` message. -/
structure VehicleMsg where
  senderId : String
  entityId : String
  data : VehicleData
deriving DecidableEq

/-- Outbound messages, identified by kind and entity (their payload is
read off the entity at send time and does not matter to the claims). -/
inductive SentMsg where
  | transformMsg (entityId : String)
  | vehicleMsg (entityId : String)
deriving DecidableEq

/-- The `NetworkSystem` state.  `networkEntities` doubles as the
world's collection of entities carrying a network identity: the source
keys its registry by `networkId` and queries the world by component,
both of which this single id-keyed list stands for. -/
structure NetworkSystemState where
  clientId : String
  isConnected : Bool
  syncInterval : ℚ
  lastSyncTime : ℚ
  networkEntities : List (String × NetEntity)
deriving DecidableEq

/-- `NetworkSystem.handleTransformUpdate(message)`. -/
def handleTransformUpdate (sys : NetworkSystemState) (msg : TransformMsg) :
    NetworkSystemState :=
  if msg.senderId = sys.clientId then sys
  else
    match assocLookup sys.networkEntities msg.entityId with
    | none => sys
    | some ent =>
      match ent.netIdentity, ent.transform with
      | some ni, some tr =>
        if ni.isOwner then sys
        else
          let tr' : TransformState :=
            { position := msg.data.position
              quaternion := msg.data.rotation
              scale :=
                match msg.data.scale with
                | some s => s
                | none => tr.scale }
          { sys with
            networkEntities :=
              assocSet sys.networkEntities msg.entityId { ent with transform := some tr' } }
      | _, _ => sys

/-- `NetworkSystem.handleVehicleUpdate(message)`. -/
def handleVehicleUpdate (sys : NetworkSystemState) (msg : VehicleMsg) :
    NetworkSystemState :=
  if msg.senderId = sys.clientId then sys
  else
    match assocLookup sys.networkEntities msg.entityId with
    | none => sys
    | some ent =>
      match ent.netIdentity, ent.vehicle with
      | some ni, some veh =>
        if ni.isOwner then sys
        else
          let veh' : VehicleState :=
            { veh with
              velocity := msg.data.velocity
              steeringAngle := msg.data.steeringAngle
              engineForce := msg.data.engineForce
              brakingForce := msg.data.brakingForce }
          { sys with
            networkEntities :=
              assocSet sys.networkEntities msg.entityId { ent with vehicle := some veh' } }
      | _, _ => sys

/-- The per-entity body of the sync pass in `NetworkSystem.update`:
run `needsSync` on an owned identity and emit the transform / vehicle
messages the sends would produce (`sendTransformUpdate` gives up
without a transform, `sendVehicleUpdate` without a vehicle). -/
def syncEntity (now : ℚ) (p : String × NetEntity) : (String × NetEntity) × List SentMsg :=
  match p.2.netIdentity with
  | none => (p, [])
  | some ni =>
    if ni.isOwner then
      let res := needsSync ni now
      let ent' := { p.2 with netIdentity := some res.2 }
      if res.1 then
        ((p.1, ent'),
          (if (ni.syncPosition ∨ ni.syncRotation ∨ ni.syncScale) ∧ p.2.transform.isSome then
            [SentMsg.transformMsg p.1] else []) ++
          (if ni.syncVelocity ∧ p.2.vehicle.isSome then
            [SentMsg.vehicleMsg p.1] else []))
      else
        ((p.1, ent'), [])
    else (p, [])

/-- `NetworkSystem.update` (`now` stands for the `performance.now()` it
reads).  Returns the new state and the messages sent this call. -/
def networkUpdate (sys : NetworkSystemState) (now : ℚ) :
    NetworkSystemState × List SentMsg :=
  if ¬sys.isConnected then (sys, [])
  else if now - sys.lastSyncTime < sys.syncInterval then (sys, [])
  else
    let processed := sys.networkEntities.map (syncEntity now)
    ({ sys with
        networkEntities := processed.map Prod.fst
        lastSyncTime := now },
      (processed.map Prod.snd).flatten)

/-- Whether a call `networkUpdate sys now` performs a sync pass (the
complement of its two early returns). -/
def syncPassOccurs (sys : NetworkSystemState) (now : ℚ) : Prop :=
  sys.isConnected = true ∧ sys.syncInterval ≤ now - sys.lastSyncTime

instance (sys : NetworkSystemState) (now : ℚ) : Decidable (syncPassOccurs sys now) :=
  inferInstanceAs (Decidable (_ ∧ _))

/-- Run `NetworkSystem.update` over a sequence of clock readings,
collecting the times at which a sync pass occurred. -/
def networkRun : NetworkSystemState → List ℚ → NetworkSystemState × List ℚ
  | sys, [] => (sys, [])
  | sys, t :: ts =>
      let step := networkUpdate sys t
      let rest := networkRun step.1 ts
      (rest.1, (if syncPassOccurs sys t then [t] else []) ++ rest.2)

/-! ### Entity / Component (src/src/lib/game/core/Entity.ts)

`addComponent` both updates the entity's type-keyed component map and
writes the component's `entity` back-reference.  Component objects live
on a heap keyed by an id so that the previously mapped object remains
observable after replacement; an entity's map stores component ids. -/

structure EcsComponent where
  ctype : String
  entityRef : Option ℕ
deriving DecidableEq

structure EcsEntity where
  eid : ℕ
  components : List (String × ℕ)
deriving DecidableEq

structure EcsState where
  entity : EcsEntity
  componentHeap : List (ℕ × EcsComponent)
deriving DecidableEq

/-- `Entity.addComponent(component)`: `components.set(component.type,
component)` then `component.entity = this` — and nothing else; the
previously mapped component is not touched. -/
def addComponent (st : EcsState) (cid : ℕ) (c : EcsComponent) : EcsState :=
  { entity := { st.entity with components := assocSet st.entity.components c.ctype cid }
    componentHeap := assocSet st.componentHeap cid { c with entityRef := some st.entity.eid } }

/-- Concrete scenario for claim C7: a fresh entity `0`... -/
def ecsScenario0 : EcsState :=
  { entity := { eid := 0, components := [] }, componentHeap := [] }

/-- ...receives component `1` of type `"t"`... -/
def ecsScenario1 : EcsState :=
  addComponent ecsScenario0 1 { ctype := "t", entityRef := none }

/-- ...and then component `2` of the same type, replacing it. -/
def ecsScenario2 : EcsState :=
  addComponent ecsScenario1 2 { ctype := "t", entityRef := none }

/-! ### RaceSystem rankings (src/src/lib/game/systems/RaceSystem.ts) -/

/-- The progress of one racer as `updateRankings` reads it off the
entity's `LapCounterComponent`. -/
structure RacerProg where
  rid : String
  currentLap : ℕ
  currentCheckpoint : ℕ
deriving DecidableEq

/-- The comparator passed to `activeRacers.sort`: lap number
descending, then checkpoint descending, then tie (0). -/
def cmpRacer (a b : RacerProg) : ℤ :=
  if a.currentLap ≠ b.currentLap then (b.currentLap : ℤ) - (a.currentLap : ℤ)
  else if a.currentCheckpoint ≠ b.currentCheckpoint then
    (b.currentCheckpoint : ℤ) - (a.currentCheckpoint : ℤ)
  else 0

/-- `a` may precede `b` in a correctly sorted array:
`cmpRacer a b ≤ 0`. -/
def raceLE (a b : RacerProg) : Prop :=
  cmpRacer a b ≤ 0

instance : DecidableRel raceLE :=
  fun a b => inferInstanceAs (Decidable (cmpRacer a b ≤ 0))

instance : IsTotal RacerProg raceLE :=
  ⟨by
    intro a b
    unfold raceLE cmpRacer
    split_ifs <;> omega⟩

instance : IsTrans RacerProg raceLE :=
  ⟨by
    intro a b c
    unfold raceLE cmpRacer
    split_ifs <;> omega⟩

/-- `activeRacers.sort(comparator)`: a sort of the list consistent with
the comparator. -/
def sortRacers (l : List RacerProg) : List RacerProg :=
  List.insertionSort raceLE l

/-- `RaceSystem.updateRankings`: filter out finished players, sort the
rest by progress, and put the finished players at the front. -/
def updateRankings (finishedPlayers : List String) (racers : List RacerProg) : List String :=
  finishedPlayers ++
    (sortRacers (racers.filter fun r => decide (r.rid ∉ finishedPlayers))).map RacerProg.rid

/-- `RaceSystem.playerFinish` restricted to its effect on
`finishedPlayers`: skip if already present, else push. -/
def playerFinish (finishedPlayers : List String) (entityId : String) : List String :=
  if entityId ∈ finishedPlayers then finishedPlayers else finishedPlayers ++ [entityId]

/-! ## Helper lemmas -/

theorem clamp_spec (lo hi x : ℚ) (h : lo ≤ hi) :
    (lo ≤ max lo (min hi x) ∧ max lo (min hi x) ≤ hi) ∧
    (x < lo → max lo (min hi x) = lo) ∧
    (lo ≤ x → x ≤ hi → max lo (min hi x) = x) ∧
    (hi < x → max lo (min hi x) = hi) := by
  refine ⟨⟨le_max_left lo _, max_le h (min_le_left hi x)⟩, ?_, ?_, ?_⟩
  · intro hx
    rw [min_eq_right (le_of_lt (lt_of_lt_of_le hx h))]
    exact max_eq_left (le_of_lt hx)
  · intro h1 h2
    rw [min_eq_right h2]
    exact max_eq_right h1
  · intro hx
    rw [min_eq_left (le_of_lt hx)]
    exact max_eq_right h

theorem assocLookup_set_self {α β : Type} [DecidableEq α] (m : List (α × β)) (k : α) (v : β) :
    assocLookup (assocSet m k v) k = some v := by
  induction m with
  | nil => simp [assocSet, assocLookup]
  | cons p rest ih =>
    by_cases h : p.1 = k
    · simp [assocSet, h, assocLookup]
    · simp [assocSet, h, assocLookup, ih]

theorem assocLookup_set_ne {α β : Type} [DecidableEq α] (m : List (α × β)) (k k' : α) (v : β)
    (h : k ≠ k') :
    assocLookup (assocSet m k v) k' = assocLookup m k' := by
  induction m with
  | nil => simp [assocSet, assocLookup, h]
  | cons p rest ih =>
    by_cases hp : p.1 = k
    · simp [assocSet, hp, assocLookup, h]
    · simp only [assocSet, hp, if_false, assocLookup]
      by_cases hq : p.1 = k'
      · simp [hq]
      · simp [hq, ih]

theorem assocFilter_nil_of_not_mem {α β : Type} [DecidableEq α] (m : List (α × β)) (k : α)
    (h : k ∉ m.map Prod.fst) :
    m.filter (fun p => decide (p.1 = k)) = [] := by
  induction m with
  | nil => rfl
  | cons p rest ih =>
    simp only [List.map_cons, List.mem_cons] at h
    push_neg at h
    simp [List.filter_cons, Ne.symm h.1, ih h.2]

theorem mem_keys_assocSet {α β : Type} [DecidableEq α] (m : List (α × β)) (k : α) (v : β)
    (x : α) (hx : x ∈ (assocSet m k v).map Prod.fst) :
    x ∈ m.map Prod.fst ∨ x = k := by
  induction m with
  | nil =>
    simp [assocSet] at hx
    exact Or.inr hx
  | cons p rest ih =>
    by_cases hp : p.1 = k
    · simp only [assocSet, hp, if_true, List.map_cons, List.mem_cons] at hx
      rcases hx with hx | hx
      · exact Or.inr hx
      · exact Or.inl (by simp [hx])
    · simp only [assocSet, hp, if_false, List.map_cons, List.mem_cons] at hx
      rcases hx with hx | hx
      · exact Or.inl (by simp [hx])
      · rcases ih hx with h | h
        · exact Or.inl (by simp [h])
        · exact Or.inr h

theorem assocSet_keys_nodup {α β : Type} [DecidableEq α] (m : List (α × β)) (k : α) (v : β)
    (h : (m.map Prod.fst).Nodup) :
    ((assocSet m k v).map Prod.fst).Nodup := by
  induction m with
  | nil => simp [assocSet]
  | cons p rest ih =>
    simp only [List.map_cons, List.nodup_cons] at h
    by_cases hp : p.1 = k
    · simp only [assocSet, hp, if_true, List.map_cons, List.nodup_cons]
      exact ⟨by simpa [hp] using h.1, h.2⟩
    · simp only [assocSet, hp, if_false, List.map_cons, List.nodup_cons]
      refine ⟨?_, ih h.2⟩
      intro hmem
      rcases mem_keys_assocSet rest k v p.1 hmem with hm | hm
      · exact h.1 hm
      · exact hp hm

theorem assocSet_filter_count {α β : Type} [DecidableEq α] (m : List (α × β)) (k : α) (v : β)
    (h : (m.map Prod.fst).Nodup) :
    ((assocSet m k v).filter (fun p => decide (p.1 = k))).length = 1 := by
  induction m with
  | nil => simp [assocSet]
  | cons p rest ih =>
    simp only [List.map_cons, List.nodup_cons] at h
    by_cases hp : p.1 = k
    · simp only [assocSet, hp, if_true]
      rw [List.filter_cons]
      simp only [decide_eq_true_eq, if_true]
      have : rest.filter (fun q => decide (q.1 = k)) = [] :=
        assocFilter_nil_of_not_mem rest k (by rw [← hp]; exact h.1)
      simp [this]
    · simp only [assocSet, hp, if_false]
      rw [List.filter_cons]
      simp only [decide_eq_true_eq]
      rw [if_neg hp]
      exact ih h.2

theorem fixedLoopAux_snd (fuel : ℕ) (step : ℚ) : ∀ acc : ℚ,
    (fixedLoopAux fuel step acc).2 = acc - ((fixedLoopAux fuel step acc).1 : ℚ) * step := by
  induction fuel with
  | zero =>
    intro acc
    simp [fixedLoopAux]
  | succ n ih =>
    intro acc
    by_cases h : 0 < step ∧ step ≤ acc
    · simp only [fixedLoopAux, if_pos h]
      rw [ih (acc - step)]
      push_cast
      ring
    · simp [fixedLoopAux, if_neg h]

theorem fixedLoopAux_bounds (step : ℚ) (hstep : 0 < step) : ∀ (fuel : ℕ) (acc : ℚ),
    0 ≤ acc → ⌊acc / step⌋₊ ≤ fuel →
    0 ≤ (fixedLoopAux fuel step acc).2 ∧ (fixedLoopAux fuel step acc).2 < step := by
  intro fuel
  induction fuel with
  | zero =>
    intro acc hacc hfl
    simp only [fixedLoopAux]
    refine ⟨hacc, ?_⟩
    have h0 : acc / step < 1 := Nat.floor_eq_zero.mp (Nat.le_zero.mp hfl)
    exact (div_lt_one hstep).mp h0
  | succ n ih =>
    intro acc hacc hfl
    by_cases h : 0 < step ∧ step ≤ acc
    · simp only [fixedLoopAux, if_pos h]
      apply ih (acc - step) (by linarith [h.2])
      have hq : (acc - step) / step = acc / step - 1 := by
        rw [sub_div, div_self (ne_of_gt hstep)]
      have hlt : acc / step < (n : ℚ) + 2 := by
        have h1 : acc / step < (⌊acc / step⌋₊ : ℚ) + 1 := Nat.lt_floor_add_one _
        have h2 : (⌊acc / step⌋₊ : ℚ) ≤ (n : ℚ) + 1 := by
          exact_mod_cast Nat.cast_le.mpr hfl
        linarith
      have hnn : 0 ≤ (acc - step) / step := div_nonneg (by linarith [h.2]) (le_of_lt hstep)
      have : ⌊(acc - step) / step⌋₊ < n + 1 := by
        rw [Nat.floor_lt hnn, hq]
        push_cast
        linarith
      omega
    · simp only [fixedLoopAux, if_neg h]
      refine ⟨hacc, ?_⟩
      rcases not_and_or.mp h with h1 | h2
      · exact absurd hstep h1
      · exact lt_of_not_le h2

theorem fixedLoop_spec (step acc : ℚ) (hstep : 0 < step) (hacc : 0 ≤ acc) :
    acc = ((fixedLoop step acc).1 : ℚ) * step + (fixedLoop step acc).2 ∧
    0 ≤ (fixedLoop step acc).2 ∧ (fixedLoop step acc).2 < step := by
  have h1 := fixedLoopAux_snd ⌊acc / step⌋₊ step acc
  have h2 := fixedLoopAux_bounds step hstep ⌊acc / step⌋₊ acc hacc le_rfl
  unfold fixedLoop
  constructor
  · rw [h1]
    ring
  · exact h2

theorem worldUpdate_nonbaseline (st : WorldState) (t : ℚ) (h : st.lastFixedUpdateTime ≠ 0) :
    worldUpdate st t =
      ({ processEntityQueue { st with lastFixedUpdateTime := t } with
          accumulator :=
            (fixedLoop st.fixedTimeStep
              (st.accumulator + min ((t - st.lastFixedUpdateTime) / 1000) (1/4))).2 },
        some
          { deltaTime := (t - st.lastFixedUpdateTime) / 1000
            cappedDeltaTime := min ((t - st.lastFixedUpdateTime) / 1000) (1/4)
            ticks :=
              (fixedLoop st.fixedTimeStep
                (st.accumulator + min ((t - st.lastFixedUpdateTime) / 1000) (1/4))).1 }) := by
  unfold worldUpdate
  rw [if_neg h]
  rfl

theorem worldRun_inv : ∀ (ts : List ℚ) (st : WorldState),
    0 < st.fixedTimeStep →
    0 ≤ st.accumulator → st.accumulator < st.fixedTimeStep →
    0 < st.lastFixedUpdateTime →
    List.Chain' (· ≤ ·) (st.lastFixedUpdateTime :: ts) →
    (worldRun st ts).1.fixedTimeStep = st.fixedTimeStep ∧
    0 ≤ (worldRun st ts).1.accumulator ∧
    (worldRun st ts).1.accumulator < st.fixedTimeStep ∧
    (((worldRun st ts).2.map FrameReport.ticks).sum : ℚ) * st.fixedTimeStep +
        (worldRun st ts).1.accumulator =
      st.accumulator + ((worldRun st ts).2.map FrameReport.cappedDeltaTime).sum := by
  intro ts
  induction ts with
  | nil =>
    intro st hstep hacc0 hacc1 _ _
    refine ⟨rfl, hacc0, hacc1, ?_⟩
    simp [worldRun]
  | cons t ts ih =>
    intro st hstep hacc0 hacc1 hlast hchain
    rw [List.chain'_cons] at hchain
    obtain ⟨hle, hchain2⟩ := hchain
    have hne : st.lastFixedUpdateTime ≠ 0 := ne_of_gt hlast
    have hval := worldUpdate_nonbaseline st t hne
    have hcap0 : 0 ≤ min ((t - st.lastFixedUpdateTime) / 1000) (1/4) :=
      le_min (div_nonneg (sub_nonneg.mpr hle) (by norm_num)) (by norm_num)
    have hspec := fixedLoop_spec st.fixedTimeStep
      (st.accumulator + min ((t - st.lastFixedUpdateTime) / 1000) (1/4)) hstep
      (by linarith)
    have hrun : worldRun st (t :: ts) =
        ((worldRun (worldUpdate st t).1 ts).1,
          (worldUpdate st t).2.toList ++ (worldRun (worldUpdate st t).1 ts).2) := rfl
    have hacc' : (worldUpdate st t).1.accumulator =
        (fixedLoop st.fixedTimeStep
          (st.accumulator + min ((t - st.lastFixedUpdateTime) / 1000) (1/4))).2 := by
      rw [hval]
    have hstep1 : (worldUpdate st t).1.fixedTimeStep = st.fixedTimeStep := by
      rw [hval]
      rfl
    have hlast1 : (worldUpdate st t).1.lastFixedUpdateTime = t := by
      rw [hval]
      rfl
    have hsnd : (worldUpdate st t).2 =
        some
          { deltaTime := (t - st.lastFixedUpdateTime) / 1000
            cappedDeltaTime := min ((t - st.lastFixedUpdateTime) / 1000) (1/4)
            ticks :=
              (fixedLoop st.fixedTimeStep
                (st.accumulator + min ((t - st.lastFixedUpdateTime) / 1000) (1/4))).1 } := by
      rw [hval]
    have hih := ih (worldUpdate st t).1
      (by rw [hstep1]; exact hstep)
      (by rw [hacc']; exact hspec.2.1)
      (by rw [hacc', hstep1]; exact hspec.2.2)
      (by rw [hlast1]; exact lt_of_lt_of_le hlast hle)
      (by rw [hlast1]; exact hchain2)
    obtain ⟨ihf, ih0, ih1, ih2⟩ := hih
    rw [hstep1] at ihf ih1 ih2
    rw [hacc'] at ih2
    rw [hrun]
    refine ⟨ihf, ih0, ih1, ?_⟩
    rw [hsnd]
    simp only [Option.toList_some, List.singleton_append, List.map_cons, List.sum_cons]
    have hdecomp := hspec.1
    push_cast
    push_cast at ih2
    linarith

theorem networkUpdate_no_pass (sys : NetworkSystemState) (now : ℚ)
    (h : ¬syncPassOccurs sys now) :
    networkUpdate sys now = (sys, []) := by
  unfold networkUpdate
  by_cases hc : sys.isConnected = true
  · have hlt : now - sys.lastSyncTime < sys.syncInterval := by
      by_contra hge
      exact h ⟨hc, le_of_not_lt hge⟩
    rw [if_neg (by simp [hc]), if_pos hlt]
  · rw [if_pos (by simpa using hc)]

theorem networkUpdate_pass (sys : NetworkSystemState) (now : ℚ)
    (h : syncPassOccurs sys now) :
    (networkUpdate sys now).1.lastSyncTime = now ∧
    (networkUpdate sys now).1.syncInterval = sys.syncInterval ∧
    (networkUpdate sys now).1.isConnected = sys.isConnected ∧
    (networkUpdate sys now).1.clientId = sys.clientId := by
  unfold networkUpdate
  rw [if_neg (by simp [h.1]), if_neg (not_lt.mpr h.2)]
  exact ⟨rfl, rfl, rfl, rfl⟩

theorem networkRun_chain : ∀ (ts : List ℚ) (sys : NetworkSystemState),
    List.Chain' (fun a b => sys.syncInterval ≤ b - a)
      (sys.lastSyncTime :: (networkRun sys ts).2) := by
  intro ts
  induction ts with
  | nil =>
    intro sys
    simp [networkRun]
  | cons t ts ih =>
    intro sys
    have hrun : networkRun sys (t :: ts) =
        ((networkRun (networkUpdate sys t).1 ts).1,
          (if syncPassOccurs sys t then [t] else []) ++
            (networkRun (networkUpdate sys t).1 ts).2) := rfl
    rw [hrun]
    by_cases hp : syncPassOccurs sys t
    · rw [if_pos hp]
      obtain ⟨hl, hi, _, _⟩ := networkUpdate_pass sys t hp
      simp only [List.singleton_append]
      rw [List.chain'_cons]
      constructor
      · exact hp.2
      · have hihs := ih (networkUpdate sys t).1
        rw [hl, hi] at hihs
        exact hihs
    · rw [if_neg hp]
      have hnp := networkUpdate_no_pass sys t hp
      rw [hnp]
      simpa using ih sys

/-! ## Claim theorems -/

/-- Claim C2: with `totalLaps = 3` and `totalCheckpoints = 5`, starting a
fresh race and passing checkpoints 0, 1, 2, 3, 4, 0 at increasing
timestamps leaves `currentLap = 2` and exactly one lap record, which is
valid and holds a timestamp for each of the five checkpoint indices. -/
theorem claim_C2 :
    lapScenario.currentLap = 2 ∧
    lapScenario.lapHistory.map
      (fun r => (r.valid, (List.range 5).all fun i => assocHas r.checkpointTimes i)) =
      [(true, true)] := by
  decide

/-- Claim C3: `checkVehiclePassing` latches and reports a pass exactly
when the distance is within the radius and the vehicle is not latched;
beyond 1.5x the radius it clears the latch and reports no pass; in the
dead zone or when already latched it reports no pass and leaves the map
untouched.  A Euclidean distance is nonnegative, whence the `0 ≤ dist`
hypothesis. -/
theorem claim_C3 (m : List (String × ℚ)) (radius : ℚ) (v : String) (dist now : ℚ)
    (hdist : 0 ≤ dist) :
    (((checkVehiclePassing m radius v dist now).1 = true) ↔
      (dist ≤ radius ∧ assocHas m v = false)) ∧
    (dist ≤ radius → assocHas m v = false →
      (checkVehiclePassing m radius v dist now).2 = assocSet m v now) ∧
    (radius * (3/2) < dist →
      (checkVehiclePassing m radius v dist now).1 = false ∧
      (checkVehiclePassing m radius v dist now).2 = assocErase m v) ∧
    ((dist ≤ radius ∧ assocHas m v = true) ∨ (radius < dist ∧ dist ≤ radius * (3/2)) →
      (checkVehiclePassing m radius v dist now).1 = false ∧
      (checkVehiclePassing m radius v dist now).2 = m) := by
  by_cases h1 : dist ≤ radius
  · by_cases h2 : assocHas m v = true
    · have hval : checkVehiclePassing m radius v dist now = (false, m) := by
        unfold checkVehiclePassing
        rw [if_pos h1, if_neg (by simp [h2])]
      refine ⟨?_, ?_, ?_, ?_⟩
      · simp [hval, h2]
      · intro _ hfalse
        rw [h2] at hfalse
        exact absurd hfalse (by simp)
      · intro h3
        exfalso
        linarith
      · intro _
        simp [hval]
    · have hval : checkVehiclePassing m radius v dist now =
          (true, assocSet m v now) := by
        unfold checkVehiclePassing
        rw [if_pos h1, if_pos (by simpa using h2)]
      refine ⟨?_, ?_, ?_, ?_⟩
      · simp [hval, h1]
        simpa using h2
      · intro _ _
        simp [hval]
      · intro h3
        exfalso
        linarith
      · intro h4
        rcases h4 with ⟨_, heq⟩ | ⟨hlt, _⟩
        · rw [heq] at h2
          exact absurd rfl h2
        · exact absurd h1 (not_le.mpr hlt)
  · by_cases h3 : radius * (3/2) < dist
    · have hval : checkVehiclePassing m radius v dist now =
          (false, assocErase m v) := by
        unfold checkVehiclePassing
        rw [if_neg h1, if_pos h3]
      refine ⟨?_, ?_, ?_, ?_⟩
      · simp [hval]
        intro ha
        exact absurd ha h1
      · intro ha _
        exact absurd ha h1
      · intro _
        simp [hval]
      · intro h4
        rcases h4 with ⟨ha, _⟩ | ⟨_, hle⟩
        · exact absurd ha h1
        · exact absurd h3 (not_lt.mpr hle)
    · have hval : checkVehiclePassing m radius v dist now = (false, m) := by
        unfold checkVehiclePassing
        rw [if_neg h1, if_neg h3]
      refine ⟨?_, ?_, ?_, ?_⟩
      · simp [hval]
        intro ha
        exact absurd ha h1
      · intro ha _
        exact absurd ha h1
      · intro hc
        exact absurd hc h3
      · intro _
        simp [hval]

/-- Witness for C3: an unlatched vehicle at distance 5 from a radius-20
checkpoint is latched at the current time and reported as passing. -/
theorem claim_C3_witness :
    (checkVehiclePassing [] 20 "v" 5 7).1 = true ∧
    (checkVehiclePassing [] 20 "v" 5 7).2 = assocSet [] "v" 7 := by
  have h := claim_C3 [] 20 "v" 5 7 (by norm_num)
  exact ⟨h.1.mpr ⟨by norm_num, rfl⟩, h.2.1 (by norm_num) rfl⟩

/-- Claim C5: `setInputs` stores each input clamped to its range:
throttle to `[-1, 1]`, brake to `[0, 1]`, steering to `[-1, 1]`. -/
theorem claim_C5 (v : VehicleState) (t b s : ℚ) :
    ((-1 ≤ (setInputs v t b s).throttleInput ∧ (setInputs v t b s).throttleInput ≤ 1) ∧
      (t < -1 → (setInputs v t b s).throttleInput = -1) ∧
      (-1 ≤ t → t ≤ 1 → (setInputs v t b s).throttleInput = t) ∧
      (1 < t → (setInputs v t b s).throttleInput = 1)) ∧
    ((0 ≤ (setInputs v t b s).brakeInput ∧ (setInputs v t b s).brakeInput ≤ 1) ∧
      (b < 0 → (setInputs v t b s).brakeInput = 0) ∧
      (0 ≤ b → b ≤ 1 → (setInputs v t b s).brakeInput = b) ∧
      (1 < b → (setInputs v t b s).brakeInput = 1)) ∧
    ((-1 ≤ (setInputs v t b s).steeringInput ∧ (setInputs v t b s).steeringInput ≤ 1) ∧
      (s < -1 → (setInputs v t b s).steeringInput = -1) ∧
      (-1 ≤ s → s ≤ 1 → (setInputs v t b s).steeringInput = s) ∧
      (1 < s → (setInputs v t b s).steeringInput = 1)) := by
  have ht := clamp_spec (-1) 1 t (by norm_num)
  have hb := clamp_spec 0 1 b (by norm_num)
  have hs := clamp_spec (-1) 1 s (by norm_num)
  exact ⟨ht, hb, hs⟩

/-- Witness for C5: out-of-range inputs `(5, 7, -3)` are stored as
`(1, 1, -1)`. -/
theorem claim_C5_witness :
    (setInputs ⟨⟨0, 0, 0⟩, 0, 0, 0, 0, 0, 0⟩ 5 7 (-3)).throttleInput = 1 ∧
    (setInputs ⟨⟨0, 0, 0⟩, 0, 0, 0, 0, 0, 0⟩ 5 7 (-3)).brakeInput = 1 ∧
    (setInputs ⟨⟨0, 0, 0⟩, 0, 0, 0, 0, 0, 0⟩ 5 7 (-3)).steeringInput = -1 := by
  have h := claim_C5 ⟨⟨0, 0, 0⟩, 0, 0, 0, 0, 0, 0⟩ 5 7 (-3)
  exact ⟨h.1.2.2.2 (by norm_num), h.2.1.2.2.2 (by norm_num), h.2.2.2.1 (by norm_num)⟩

/-- Claim C8: on an owned `NetworkIdentityComponent`, `needsSync(now)`
returns true exactly when the dirty flag is set and the interval has
elapsed, in which case it clears the dirty flag and stamps
`lastSyncTime := now`; a false result, and every call on a non-owned
component, leaves the component unchanged. -/
theorem claim_C8 (ni : NetIdentity) (now : ℚ) :
    (ni.isOwner = true →
      (((needsSync ni now).1 = true) ↔
        (ni.isDirty = true ∧ ni.syncInterval ≤ now - ni.lastSyncTime)) ∧
      ((needsSync ni now).1 = true →
        (needsSync ni now).2 = { ni with isDirty := false, lastSyncTime := now }) ∧
      ((needsSync ni now).1 = false → (needsSync ni now).2 = ni)) ∧
    (ni.isOwner = false → needsSync ni now = (false, ni)) := by
  constructor
  · intro how
    by_cases hd : ni.isDirty = true ∧ ni.syncInterval ≤ now - ni.lastSyncTime
    · have hval : needsSync ni now =
          (true, { ni with isDirty := false, lastSyncTime := now }) := by
        unfold needsSync
        rw [if_neg (by simp [how]), if_pos ⟨hd.1, hd.2⟩]
      refine ⟨?_, ?_, ?_⟩
      · simp [hval, hd.1, hd.2]
      · intro _
        simp [hval]
      · intro hfalse
        rw [hval] at hfalse
        exact absurd hfalse (by simp)
    · have hval : needsSync ni now = (false, ni) := by
        unfold needsSync
        rw [if_neg (by simp [how]), if_neg (fun hc => hd ⟨hc.1, hc.2⟩)]
      refine ⟨?_, ?_, ?_⟩
      · rw [hval]
        constructor
        · intro hfalse
          exact absurd hfalse (by simp)
        · intro hc
          exact absurd hc hd
      · intro htrue
        rw [hval] at htrue
        exact absurd htrue (by simp)
      · intro _
        rw [hval]
  · intro how
    unfold needsSync
    rw [if_pos (by simp [how])]

/-- Witness for C8: an owned, dirty identity with interval 100 last
synced at 0 reports `needsSync(150)` true. -/
theorem claim_C8_witness :
    (needsSync ⟨"n", "o", true, false, true, true, false, true, 100, 0, true⟩ 150).1 = true := by
  exact ((claim_C8 ⟨"n", "o", true, false, true, true, false, true, 100, 0, true⟩ 150).1
    rfl).1.mpr ⟨rfl, by norm_num⟩

/-- Claim C9: an inbound transform-update or vehicle-update whose
`senderId` equals the local client id leaves the network system's state
(and hence every registered entity) untouched. -/
theorem claim_C9 (sys : NetworkSystemState) (mt : TransformMsg) (mv : VehicleMsg)
    (h1 : mt.senderId = sys.clientId) (h2 : mv.senderId = sys.clientId) :
    handleTransformUpdate sys mt = sys ∧ handleVehicleUpdate sys mv = sys := by
  constructor
  · unfold handleTransformUpdate
    rw [if_pos h1]
  · unfold handleVehicleUpdate
    rw [if_pos h2]

/-- Witness for C9: a self-echoed transform and vehicle update on a
one-entity system change nothing. -/
theorem claim_C9_witness :
    handleTransformUpdate ⟨"me", true, 100, 0, []⟩ ⟨"me", "e1", ⟨⟨1, 2, 3⟩, ⟨0, 0, 0, 1⟩, none⟩⟩ =
      ⟨"me", true, 100, 0, []⟩ ∧
    handleVehicleUpdate ⟨"me", true, 100, 0, []⟩ ⟨"me", "e1", ⟨⟨1, 2, 3⟩, 4, 5, 6⟩⟩ =
      ⟨"me", true, 100, 0, []⟩ := by
  exact claim_C9 ⟨"me", true, 100, 0, []⟩ _ _ rfl rfl

/-- Counterexample to claim C7 as stated: after entity `0` receives
component `1` of type `"t"` and then component `2` of the same type,
the type maps to component `2`, but the replaced component `1` has NOT
had its back-reference detached — its `entity` field still points at
entity `0` (`Entity.addComponent` only writes the map and the new
component's back-reference; detachment happens only in
`removeComponent`). -/
theorem claim_C7_counterexample :
    assocLookup ecsScenario2.entity.components "t" = some 2 ∧
    assocLookup ecsScenario2.componentHeap 1 = some { ctype := "t", entityRef := some 0 } := by
  decide

/-- Claim C7 (amended): after `addComponent c1` then `addComponent c2`
with the same type tag, the entity maps that type to `c2` alone
(exactly one binding of the type in the component map), while the
replaced `c1` keeps its back-reference unchanged: it still points at
the entity. -/
theorem claim_C7 (e : ℕ) (comps : List (String × ℕ)) (heap : List (ℕ × EcsComponent))
    (c1id c2id : ℕ) (c1 c2 : EcsComponent)
    (hty : c1.ctype = c2.ctype) (hne : c1id ≠ c2id)
    (hnd : (comps.map Prod.fst).Nodup) :
    let st2 := addComponent (addComponent ⟨⟨e, comps⟩, heap⟩ c1id c1) c2id c2
    assocLookup st2.entity.components c1.ctype = some c2id ∧
    (st2.entity.components.filter (fun p => decide (p.1 = c1.ctype))).length = 1 ∧
    assocLookup st2.componentHeap c1id = some { c1 with entityRef := some e } ∧
    assocLookup st2.componentHeap c2id = some { c2 with entityRef := some e } := by
  refine ⟨?_, ?_, ?_, ?_⟩
  · rw [hty]
    exact assocLookup_set_self _ c2.ctype c2id
  · rw [hty]
    exact assocSet_filter_count _ c2.ctype c2id (assocSet_keys_nodup comps c1.ctype c1id hnd)
  · show assocLookup (assocSet (assocSet heap c1id _) c2id _) c1id = _
    rw [assocLookup_set_ne _ c2id c1id _ (Ne.symm hne), assocLookup_set_self]
  · exact assocLookup_set_self _ c2id _

/-- Witness for C7 (amended): the concrete two-add scenario. -/
theorem claim_C7_witness :
    assocLookup ecsScenario2.entity.components "t" = some 2 ∧
    (ecsScenario2.entity.components.filter (fun p => decide (p.1 = "t"))).length = 1 ∧
    assocLookup ecsScenario2.componentHeap 1 =
      some { ctype := "t", entityRef := some 0 } ∧
    assocLookup ecsScenario2.componentHeap 2 =
      some { ctype := "t", entityRef := some 0 } := by
  exact claim_C7 0 [] [] 1 2 { ctype := "t", entityRef := none }
    { ctype := "t", entityRef := none } rfl (by decide) (by decide)

/-- Claim C4: `updateRankings` produces the finished players, in finish
order, at the front of the rankings, followed by the ids of the
remaining active racers in an order sorted by lap descending then
checkpoint descending; and `playerFinish` never appends a player that
is already recorded, so the finished list stays duplicate-free. -/
theorem claim_C4 (finished : List String) (racers : List RacerProg) (entityId : String) :
    (∃ s : List RacerProg,
      List.Perm (racers.filter fun r => decide (r.rid ∉ finished)) s ∧
      List.Sorted raceLE s ∧
      updateRankings finished racers = finished ++ s.map RacerProg.rid) ∧
    (finished.Nodup → (playerFinish finished entityId).Nodup) := by
  constructor
  · refine ⟨sortRacers (racers.filter fun r => decide (r.rid ∉ finished)), ?_, ?_, rfl⟩
    · exact (List.perm_insertionSort raceLE _).symm
    · exact List.sorted_insertionSort raceLE _
  · intro hnd
    unfold playerFinish
    split_ifs with h
    · exact hnd
    · simp [List.nodup_append, hnd, h]

/-- Witness for C4: finishing player `"b"` with `["a"]` already
finished keeps the list duplicate-free. -/
theorem claim_C4_witness :
    (playerFinish ["a"] "b").Nodup := by
  exact (claim_C4 ["a"] [⟨"b", 1, 0⟩, ⟨"c", 2, 0⟩] "b").2 (by decide)

/-- Counterexample to claim C6 as stated: if the very first call passes
`currentTime = 0`, the recorded baseline stays `0` (the sentinel), so
the second call — a "subsequent call" in the claim's words — again
takes the baseline branch and performs no entity-queue drain, no fixed
tick and no variable tick, instead of computing and driving the capped
delta `(10 - 0)/1000`. -/
theorem claim_C6_counterexample :
    (worldUpdate (worldUpdate (initWorld (1/60)) 0).1 10).2 = none := by
  decide

/-- Claim C6 (amended): a call made while the stored baseline time is 0
(in particular the very first call) records `currentTime` as the
baseline and returns without simulating; every call made while the
baseline is nonzero computes `deltaTime = (currentTime - lastTime)/1000`,
caps it at 0.25 s, drains the entity queue, and drives the fixed ticks
and the variable tick with the capped delta (the tick/accumulator
identity below is exactly "the capped delta was fed to the fixed-step
loop"). -/
theorem claim_C6 (st : WorldState) (t : ℚ) :
    (st.lastFixedUpdateTime = 0 →
      worldUpdate st t = ({ st with lastFixedUpdateTime := t }, none)) ∧
    (st.lastFixedUpdateTime ≠ 0 →
      ∃ st' r, worldUpdate st t = (st', some r) ∧
        r.deltaTime = (t - st.lastFixedUpdateTime) / 1000 ∧
        r.cappedDeltaTime = min r.deltaTime (1/4) ∧
        st'.lastFixedUpdateTime = t ∧
        st'.fixedTimeStep = st.fixedTimeStep ∧
        st'.entitiesToAdd = [] ∧
        st'.entitiesToRemove = [] ∧
        st'.entities = (processEntityQueue { st with lastFixedUpdateTime := t }).entities ∧
        (r.ticks : ℚ) * st.fixedTimeStep + st'.accumulator =
          st.accumulator + r.cappedDeltaTime) := by
  constructor
  · intro h
    unfold worldUpdate
    rw [if_pos h]
  · intro h
    have hval : worldUpdate st t =
        ({ processEntityQueue { st with lastFixedUpdateTime := t } with
            accumulator :=
              (fixedLoop st.fixedTimeStep
                (st.accumulator + min ((t - st.lastFixedUpdateTime) / 1000) (1/4))).2 },
          some
            { deltaTime := (t - st.lastFixedUpdateTime) / 1000
              cappedDeltaTime := min ((t - st.lastFixedUpdateTime) / 1000) (1/4)
              ticks :=
                (fixedLoop st.fixedTimeStep
                  (st.accumulator + min ((t - st.lastFixedUpdateTime) / 1000) (1/4))).1 }) := by
      unfold worldUpdate
      rw [if_neg h]
      rfl
    refine ⟨_, _, hval, rfl, rfl, rfl, rfl, rfl, rfl, rfl, ?_⟩
    have hsnd := fixedLoopAux_snd
      ⌊(st.accumulator + min ((t - st.lastFixedUpdateTime) / 1000) (1/4)) / st.fixedTimeStep⌋₊
      st.fixedTimeStep (st.accumulator + min ((t - st.lastFixedUpdateTime) / 1000) (1/4))
    unfold fixedLoop
    rw [hsnd]
    ring

/-- Witness for C6 (amended): a call at time 6 on a world whose
baseline is 5, with one entity queued for addition. -/
theorem claim_C6_witness :
    ∃ st' r, worldUpdate ⟨[], ["g"], [], 5, 0, 1/60⟩ 6 = (st', some r) ∧
      r.deltaTime = ((6 : ℚ) - 5) / 1000 ∧
      r.cappedDeltaTime = min r.deltaTime (1/4) ∧
      st'.lastFixedUpdateTime = 6 ∧
      st'.fixedTimeStep = 1/60 ∧
      st'.entitiesToAdd = [] ∧
      st'.entitiesToRemove = [] ∧
      st'.entities = (processEntityQueue ⟨[], ["g"], [], 6, 0, 1/60⟩).entities ∧
      (r.ticks : ℚ) * (1/60) + st'.accumulator = 0 + r.cappedDeltaTime := by
  exact (claim_C6 ⟨[], ["g"], [], 5, 0, 1/60⟩ 6).2 (by norm_num)

/-- Claim C1: over any sequence of frames driven by a monotone positive
clock (per-frame deltas are elapsed times, hence nonnegative), the
number of fixed ticks executed times `fixedTimeStep` is at most the sum
`D` of the processed (capped) deltas, `D` is strictly below
`(ticks + 1) * fixedTimeStep`, and the accumulator ends in
`[0, fixedTimeStep)`. -/
theorem claim_C1 (step : ℚ) (ts : List ℚ) (hstep : 0 < step)
    (hmono : List.Chain' (· ≤ ·) ts) (hpos : ∀ t ∈ ts, 0 < t) :
    (((worldRun (initWorld step) ts).2.map FrameReport.ticks).sum : ℚ) * step ≤
        ((worldRun (initWorld step) ts).2.map FrameReport.cappedDeltaTime).sum ∧
    ((worldRun (initWorld step) ts).2.map FrameReport.cappedDeltaTime).sum <
        ((((worldRun (initWorld step) ts).2.map FrameReport.ticks).sum : ℚ) + 1) * step ∧
    0 ≤ (worldRun (initWorld step) ts).1.accumulator ∧
    (worldRun (initWorld step) ts).1.accumulator < step := by
  cases ts with
  | nil =>
    refine ⟨?_, ?_, ?_, ?_⟩
    · simp [worldRun]
    · simp [worldRun]
      exact hstep
    · simp [worldRun, initWorld]
    · simpa [worldRun, initWorld] using hstep
  | cons t0 ts' =>
    have ht0 : 0 < t0 := hpos t0 (by simp)
    have hbase : worldUpdate (initWorld step) t0 =
        ({ initWorld step with lastFixedUpdateTime := t0 }, none) := by
      unfold worldUpdate
      rw [if_pos (show (initWorld step).lastFixedUpdateTime = 0 from rfl)]
    have hrun : worldRun (initWorld step) (t0 :: ts') =
        ((worldRun (worldUpdate (initWorld step) t0).1 ts').1,
          (worldUpdate (initWorld step) t0).2.toList ++
            (worldRun (worldUpdate (initWorld step) t0).1 ts').2) := rfl
    have hinv := worldRun_inv ts' ({ initWorld step with lastFixedUpdateTime := t0 })
      hstep le_rfl hstep ht0 hmono
    obtain ⟨_, h0, h1, h2⟩ := hinv
    rw [hrun, hbase]
    simp only [Option.toList_none, List.nil_append]
    have hfs : ({ initWorld step with lastFixedUpdateTime := t0 } :
        WorldState).fixedTimeStep = step := rfl
    have hac : ({ initWorld step with lastFixedUpdateTime := t0 } :
        WorldState).accumulator = 0 := rfl
    rw [hfs] at h1 h2
    rw [hac] at h2
    refine ⟨by linarith, by linarith, h0, h1⟩

/-- Witness for C1: two frames at clock readings 1000 and 1000 (a
baseline frame then a zero-delta frame) with the default step 1/60. -/
theorem claim_C1_witness :
    (((worldRun (initWorld (1/60)) [1000, 1000]).2.map FrameReport.ticks).sum : ℚ) * (1/60) ≤
        ((worldRun (initWorld (1/60)) [1000, 1000]).2.map FrameReport.cappedDeltaTime).sum ∧
    ((worldRun (initWorld (1/60)) [1000, 1000]).2.map FrameReport.cappedDeltaTime).sum <
        ((((worldRun (initWorld (1/60)) [1000, 1000]).2.map FrameReport.ticks).sum : ℚ) + 1) *
          (1/60) ∧
    0 ≤ (worldRun (initWorld (1/60)) [1000, 1000]).1.accumulator ∧
    (worldRun (initWorld (1/60)) [1000, 1000]).1.accumulator < 1/60 := by
  exact claim_C1 (1/60) [1000, 1000] (by norm_num)
    (List.chain'_pair.mpr (le_refl (1000 : ℚ)))
    (by
      intro t ht
      rcases List.mem_cons.mp ht with h | h
      · rw [h]
        norm_num
      · rw [List.mem_singleton.mp h]
        norm_num)

/-- Claim C10: while connected, `NetworkSystem.update` performs a sync
pass only when at least `syncInterval` has elapsed since the previous
pass (otherwise it returns with nothing changed and nothing sent); a
pass stamps the system-wide `lastSyncTime` with the current time
unconditionally — dirty entities or not, messages or not; hence over
any sequence of update calls, consecutive sync-pass times are at least
`syncInterval` apart. -/
theorem claim_C10 (sys : NetworkSystemState) (now : ℚ) (ts : List ℚ) :
    (sys.isConnected = true → now - sys.lastSyncTime < sys.syncInterval →
      networkUpdate sys now = (sys, [])) ∧
    (sys.isConnected = true → sys.syncInterval ≤ now - sys.lastSyncTime →
      (networkUpdate sys now).1.lastSyncTime = now) ∧
    List.Chain' (fun a b => sys.syncInterval ≤ b - a) (networkRun sys ts).2 := by
  refine ⟨?_, ?_, ?_⟩
  · intro _ hlt
    exact networkUpdate_no_pass sys now (fun hp => absurd hp.2 (not_le.mpr hlt))
  · intro hc hle
    exact (networkUpdate_pass sys now ⟨hc, hle⟩).1
  · exact (networkRun_chain ts sys).tail

/-- Witness for C10: with interval 100 and last sync at 0, an update at
50 is a no-op, while an update at 150 on a system with no entities at
all (so nothing is sent) still stamps `lastSyncTime := 150`. -/
theorem claim_C10_witness :
    networkUpdate ⟨"me", true, 100, 0, []⟩ 50 = (⟨"me", true, 100, 0, []⟩, []) ∧
    (networkUpdate ⟨"me", true, 100, 0, []⟩ 150).1.lastSyncTime = 150 := by
  exact ⟨(claim_C10 ⟨"me", true, 100, 0, []⟩ 50 []).1 rfl (by norm_num),
    (claim_C10 ⟨"me", true, 100, 0, []⟩ 150 []).2.1 rfl (by norm_num)⟩

end ERacer
